import Mathlib

set_option linter.unusedVariables false

/-!
Shallow embedding of the every-marketplace repository's two service classes:

* `RssService` (packages/rss-plugin/src/service.ts): feeds, feed items and
  trending scores stored in Redis (string keys, lists, sets, sorted sets).
* `MarketplaceService` (marketplace plugin service): products, collections and
  categories stored in a relational table model, plus optional Redis-backed
  trending.

Redis sorted sets are modelled as association lists from member to score.
Timestamps (JavaScript `Date.now()` / `new Date(s).getTime()` values) are
modelled as `Int` milliseconds. JSON serialisation through the store is the
identity on the typed records (`Schema.parse(JSON.parse(JSON.stringify(x)))`
round-trips), so the stores hold the records directly.
-/

/-- The four time-window identifiers of both services
(`'1h' | '24h' | '7d' | '30d'`). -/
inductive TimeWindow : Type
  | w1h
  | w24h
  | w7d
  | w30d
deriving DecidableEq

/-- Both services' private `getTimeWindowSeconds` switch (the `default` arm of
the switch is unreachable for the enumerated type). -/
def getTimeWindowSeconds : TimeWindow → Int
  | .w1h => 3600
  | .w24h => 86400
  | .w7d => 604800
  | .w30d => 2592000

/-- A Redis sorted set: member to score, at most one entry per member. -/
abbrev ZSet := List (String × Int)

/-- Redis `ZADD key score member`: upsert the member's score. -/
def zadd (z : ZSet) (score : Int) (member : String) : ZSet :=
  z.filter (fun p => !(p.1 == member)) ++ [(member, score)]

/-- Redis `ZSCORE`: the member's score, if the member is in the set. -/
def zscore (z : ZSet) (member : String) : Option Int :=
  (z.find? (fun p => p.1 == member)).map Prod.snd

/-- Ordering used by `ZREVRANGEBYSCORE`: higher scores first. The order among
members of equal score is not observed by any verified claim. -/
def zrevRel (p q : String × Int) : Prop := q.2 ≤ p.2

instance : DecidableRel zrevRel := fun p q => inferInstanceAs (Decidable (q.2 ≤ p.2))

instance : IsTotal (String × Int) zrevRel := ⟨fun p q => Int.le_total q.2 p.2⟩

instance : IsTrans (String × Int) zrevRel := ⟨fun _ _ _ hab hbc => le_trans hbc hab⟩

/-- The pairs `ZREVRANGEBYSCORE key +inf minScore LIMIT 0 limit` ranges over:
entries with score at least `minScore`, highest score first, truncated. -/
def zrevPairs (z : ZSet) (minScore : Int) (limit : Nat) : List (String × Int) :=
  ((z.filter fun p => decide (minScore ≤ p.2)).insertionSort zrevRel).take limit

/-- Redis `ZREVRANGEBYSCORE key +inf minScore LIMIT 0 limit` (members only,
as the ioredis call used by both services returns them). -/
def zrevrangebyscore (z : ZSet) (minScore : Int) (limit : Nat) : List String :=
  (zrevPairs z minScore limit).map Prod.fst

/-- An RSS item category entry (`{ name?, term? }` in the feed schema). -/
structure ItemCategory : Type where
  name : Option String
  term : Option String
deriving DecidableEq

/-- A feed item (`FeedItem` schema). `date` and `published` carry the epoch
milliseconds of the corresponding ISO strings; `published` is optional and
falls back to `date` wherever the service evaluates
`new Date(item.published || item.date)`. -/
structure FeedItem : Type where
  id : String
  title : String
  link : String
  description : Option String
  date : Int
  published : Option Int
  category : List ItemCategory
deriving DecidableEq

/-- The publish/creation instant the service sorts and filters by. -/
def itemTime (it : FeedItem) : Int := it.published.getD it.date

/-- The `options` object of a `Feed`. -/
structure FeedOptions : Type where
  id : String
  title : String
  description : String
  link : String
deriving DecidableEq

/-- A feed (`Feed` schema), as stored whole under `feed:{id}`. -/
structure Feed : Type where
  options : FeedOptions
  items : List FeedItem
  categories : List String
deriving DecidableEq

/-- The Redis keyspace the `RssService` touches:
`feeds:directory` (set), `feed:{id}` (string), `feed:{id}:items` (list, head =
most recently `LPUSH`ed), `item:{id}` (string), `trending:{w}` and
`trending:feed:{f}:{w}` (sorted sets). -/
structure RssStore : Type where
  feedsDirectory : List String
  feedData : String → Option Feed
  feedItems : String → List String
  itemData : String → Option FeedItem
  trending : TimeWindow → ZSet
  feedTrending : String → TimeWindow → ZSet

/-- `RssService.getFeedItems`: read the feed's item-id list with
`LRANGE 0 -1`, resolve each id and keep the records that exist. -/
def getFeedItems (s : RssStore) (feedId : String) : List FeedItem :=
  (s.feedItems feedId).filterMap s.itemData

/-- `RssService.getFeedItem`: a plain `GET item:{itemId}`; the `feedId`
argument is only interpolated into the error message. -/
def getFeedItem (s : RssStore) (feedId itemId : String) : Option FeedItem :=
  s.itemData itemId

/-- The `since` cutoff of `getAllFeedItems`: an item is kept unless its
publish instant is strictly before the cutoff. -/
def keepSince (since : Option Int) (it : FeedItem) : Bool :=
  match since with
  | some t => decide (t ≤ itemTime it)
  | none => true

/-- The unsorted accumulation loop of `RssService.getAllFeedItems`: every
feed of the directory, every member of its item list, resolved and passed
through the optional `since` filter, in store order. -/
def collectAllItems (s : RssStore) (since : Option Int) : List FeedItem :=
  (s.feedsDirectory.map
    (fun feedId => ((s.feedItems feedId).filterMap s.itemData).filter (keepSince since))).flatten

/-- Sorting comparator of `getAllFeedItems`: newest publish date first
(`dateB.getTime() - dateA.getTime()`). -/
def dateDescRel (a b : FeedItem) : Prop := itemTime b ≤ itemTime a

instance : DecidableRel dateDescRel := fun a b => inferInstanceAs (Decidable (itemTime b ≤ itemTime a))

instance : IsTotal FeedItem dateDescRel := ⟨fun a b => Int.le_total (itemTime b) (itemTime a)⟩

instance : IsTrans FeedItem dateDescRel := ⟨fun _ _ _ hab hbc => le_trans hbc hab⟩

/-- The combined list of `getAllFeedItems` after the in-place sort, before
pagination. JavaScript `Array.sort` is stable, as is `insertionSort`. -/
def sortedAllItems (s : RssStore) (since : Option Int) : List FeedItem :=
  (collectAllItems s since).insertionSort dateDescRel

/-- `RssService.getAllFeedItems`: collect, sort newest-first, then
`slice(offset, offset + limit)`. -/
def getAllFeedItems (s : RssStore) (limit offset : Nat) (since : Option Int) : List FeedItem :=
  ((sortedAllItems s since).drop offset).take limit

/-- `RssService.addFeedItem`: `SET item:{id}` then `LPUSH feed:{feedId}:items`.
Items arriving through the contract always carry an id (the handler fills in
a UUID otherwise). -/
def addFeedItem (s : RssStore) (feedId : String) (item : FeedItem) : RssStore :=
  { s with
    itemData := fun i => if i = item.id then some item else s.itemData i,
    feedItems := fun f => if f = feedId then item.id :: s.feedItems f else s.feedItems f }

/-- `RssService.addFeed`: on an existing feed first delete the old items and
clear the list; then store the feed record, `SADD` the directory, and store
and `LPUSH` each item of `feed.items` in array order. -/
def addFeed (s : RssStore) (feed : Feed) : RssStore :=
  let feedId := feed.options.id
  let s0 : RssStore :=
    match s.feedData feedId with
    | some _ =>
      { s with
        itemData := fun i => if (s.feedItems feedId).contains i then none else s.itemData i,
        feedItems := fun f => if f = feedId then [] else s.feedItems f }
    | none => s
  let s1 : RssStore :=
    { s0 with
      feedData := fun f => if f = feedId then some feed else s0.feedData f,
      feedsDirectory :=
        if s0.feedsDirectory.contains feedId then s0.feedsDirectory
        else s0.feedsDirectory ++ [feedId] }
  feed.items.foldl
    (fun acc item =>
      { acc with
        itemData := fun i => if i = item.id then some item else acc.itemData i,
        feedItems := fun f => if f = feedId then item.id :: acc.feedItems f else acc.feedItems f })
    s1

/-- `RssService.getTrendingItems`: range the window's global sorted set down
to `now - windowSeconds * 1000`, then resolve each id, skipping missing
records. -/
def getTrendingItems (s : RssStore) (w : TimeWindow) (limit : Nat) (now : Int) : List FeedItem :=
  (zrevrangebyscore (s.trending w) (now - getTimeWindowSeconds w * 1000) limit).filterMap
    s.itemData

/-- `RssService.getFeedTrending`: as `getTrendingItems` over the feed-scoped
sorted set `trending:feed:{feedId}:{w}`. -/
def getFeedTrending (s : RssStore) (feedId : String) (w : TimeWindow) (limit : Nat) (now : Int) :
    List FeedItem :=
  (zrevrangebyscore (s.feedTrending feedId w) (now - getTimeWindowSeconds w * 1000)
      limit).filterMap s.itemData

/-- `RssService.trackItemView`: `ZADD now itemId` into every window's global
set, then scan the feed directory and, for the first feed whose item list
contains the item, `ZADD` into that feed's scoped sets for every window and
`break`. -/
def trackItemView (s : RssStore) (itemId : String) (now : Int) : RssStore :=
  let s1 : RssStore := { s with trending := fun w => zadd (s.trending w) now itemId }
  match s.feedsDirectory.find? (fun f => (s.feedItems f).contains itemId) with
  | some hit =>
    { s1 with
      feedTrending := fun f w =>
        if f = hit then zadd (s.feedTrending f w) now itemId else s.feedTrending f w }
  | none => s1

/-- The error value `RssService` wraps store failures into. -/
structure RedisError : Type where
  message : String
deriving DecidableEq

/-- `RssService.getFeed` with the fallible store call explicit: a failing
`GET` is wrapped into a `RedisError`; an absent key is returned as `null`. -/
def getFeedWithClient (clientGet : String → Except Unit (Option Feed)) (feedId : String) :
    Except RedisError (Option Feed) :=
  match clientGet ("feed:" ++ feedId) with
  | .ok feedData => .ok feedData
  | .error _ => .error { message := "Failed to get feed " ++ feedId }

/-- A row of the `products` table (db/schema.ts). `price` (a SQL `real`)
is modelled at integer precision; no verified claim computes with it. -/
structure Product : Type where
  id : String
  sellerId : String
  name : String
  description : Option String
  price : Int
  currency : String
  availability : String
  sku : Option String
  gtin : Option String
  brand : Option String
  stockQuantity : Option Int
  createdAt : Int
  updatedAt : Option Int
deriving DecidableEq

/-- A row of the `product_images` table. -/
structure ProductImage : Type where
  id : String
  productId : String
  url : String
  position : Int
  width : Option Int
  height : Option Int
  caption : Option String
deriving DecidableEq

/-- A row of the `categories` table. -/
structure Category : Type where
  id : String
  name : String
  slug : String
  parentId : Option String
deriving DecidableEq

/-- The `{ id, name }` projection `getProduct` selects from `categories`. -/
structure CategoryRef : Type where
  id : String
  name : String
deriving DecidableEq

/-- The shape `getProduct` returns: the product row, plus `images` and
`categories` fields that are only assigned when the respective flag is set
(otherwise they stay absent, which is what `product.categories?.some`
observes as `undefined`). -/
structure ProductOutput : Type where
  product : Product
  images : Option (List ProductImage)
  categories : Option (List CategoryRef)
deriving DecidableEq

/-- The relational tables `MarketplaceService` reads for the verified
claims. `productCategories` rows are `(productId, categoryId)` pairs. -/
structure MarketDb : Type where
  products : List Product
  productImages : List ProductImage
  productCategories : List (String × String)
  categories : List Category

/-- Ordering of `getProduct`'s image query (`orderBy(position)`). -/
def imagePosRel (a b : ProductImage) : Prop := a.position ≤ b.position

instance : DecidableRel imagePosRel := fun a b => inferInstanceAs (Decidable (a.position ≤ b.position))

/-- The images of a product, ordered by position. -/
def imagesFor (db : MarketDb) (productId : String) : List ProductImage :=
  (db.productImages.filter (fun im => im.productId == productId)).insertionSort imagePosRel

/-- `MarketplaceService.getProduct`: select the row by id (`limit 1`), return
`null` when absent; attach `images` when `includeImages`; attach
`categories` when `includeCategories` and the product has category links. -/
def getProduct (db : MarketDb) (id : String) (includeImages includeCategories : Bool) :
    Option ProductOutput :=
  match db.products.find? (fun p => p.id == id) with
  | none => none
  | some row =>
    let r0 : ProductOutput := { product := row, images := none, categories := none }
    let r1 : ProductOutput :=
      if includeImages then { r0 with images := some (imagesFor db id) } else r0
    let r2 : ProductOutput :=
      if includeCategories then
        let categoryIds := (db.productCategories.filter (fun pc => pc.1 == id)).map Prod.snd
        if categoryIds.isEmpty then r1
        else
          { r1 with
            categories :=
              some ((db.categories.filter (fun c => categoryIds.contains c.id)).map
                (fun c => { id := c.id, name := c.name })) }
      else r1
    some r2

/-- The partial update accepted by `updateProduct` (`ProductUpdate` schema):
a field is written exactly when it is provided (`!== undefined`). -/
structure ProductUpdate : Type where
  name : Option String
  description : Option String
  price : Option Int
  currency : Option String
  availability : Option String
  stockQuantity : Option Int
  sku : Option String
  gtin : Option String
  brand : Option String
deriving DecidableEq

/-- A provided update value overrides a nullable column, an absent one keeps
the old value. -/
def updOpt {α : Type} (upd old : Option α) : Option α :=
  match upd with
  | some v => some v
  | none => old

/-- Whether `updateProduct`'s `values` object holds more than `updatedAt`
(the `Object.keys(values).length > 1` guard). -/
def hasUpdateFields (u : ProductUpdate) : Bool :=
  u.name.isSome || u.description.isSome || u.price.isSome || u.currency.isSome ||
    u.availability.isSome || u.stockQuantity.isSome || u.sku.isSome || u.gtin.isSome ||
    u.brand.isSome

/-- The row produced by `updateProduct`'s `SET` clause: each provided field,
plus `updatedAt := now`. -/
def applyUpdate (u : ProductUpdate) (now : Int) (p : Product) : Product :=
  { p with
    name := u.name.getD p.name,
    description := updOpt u.description p.description,
    price := u.price.getD p.price,
    currency := u.currency.getD p.currency,
    availability := u.availability.getD p.availability,
    stockQuantity := updOpt u.stockQuantity p.stockQuantity,
    sku := updOpt u.sku p.sku,
    gtin := updOpt u.gtin p.gtin,
    brand := updOpt u.brand p.brand,
    updatedAt := some now }

/-- `MarketplaceService.updateProduct` over the `products` table: build
`values` from the provided fields; only when some field beyond `updatedAt`
is present, `UPDATE ... SET values WHERE id = id`; always report success. -/
def updateProduct (tbl : List Product) (id : String) (u : ProductUpdate) (now : Int) :
    List Product × Bool :=
  if hasUpdateFields u then
    (tbl.map (fun p => if p.id = id then applyUpdate u now p else p), true)
  else
    (tbl, true)

/-- The optional Redis client of `MarketplaceService`: per-window sorted sets
under `marketplace:trending:{w}`. -/
structure MarketRedis : Type where
  trending : TimeWindow → ZSet

/-- A `MarketplaceService` instance's state: the database plus the optional
Redis client. -/
structure MarketState : Type where
  db : MarketDb
  redis : Option MarketRedis

/-- `MarketplaceService.trackProductView`: without Redis, report success and
touch nothing; with Redis, `ZADD now productId` into every window's set. -/
def trackProductView (st : MarketState) (productId : String) (now : Int) : MarketState × Bool :=
  match st.redis with
  | none => (st, true)
  | some r =>
    ({ st with redis := some { trending := fun w => zadd (r.trending w) now productId } }, true)

/-- The JavaScript truthiness test
`categoryId && !product.categories?.some(cat => cat.id === categoryId)`:
with `categories` never assigned it is `undefined`, so the test fails for
every candidate. -/
def categoryMatches (product : ProductOutput) (categoryId : String) : Bool :=
  match product.categories with
  | some cats => cats.any (fun c => c.id == categoryId)
  | none => false

/-- The resolve-filter-truncate loop of `getTrendingProducts`: resolve each
candidate with `getProduct(id, false, false)`, skip missing records, skip
records failing the category test, stop once `limit` records are pushed. -/
def trendLoop (db : MarketDb) (categoryId : Option String) (limit : Nat) :
    List String → List ProductOutput → List ProductOutput
  | [], products => products
  | productId :: rest, products =>
    match getProduct db productId false false with
    | none => trendLoop db categoryId limit rest products
    | some product =>
      match categoryId with
      | some cid =>
        if !(categoryMatches product cid) then trendLoop db categoryId limit rest products
        else if limit ≤ (products ++ [product]).length then products ++ [product]
        else trendLoop db categoryId limit rest (products ++ [product])
      | none =>
        if limit ≤ (products ++ [product]).length then products ++ [product]
        else trendLoop db categoryId limit rest (products ++ [product])

/-- `MarketplaceService.getTrendingProducts`: without Redis return `[]`;
otherwise range the window's sorted set down to the cutoff - fetching
`limit * 2` candidate ids when a category filter was requested, `limit`
otherwise - and run the resolve-filter loop. -/
def getTrendingProducts (st : MarketState) (timeWindow : TimeWindow) (categoryId : Option String)
    (limit : Nat) (now : Int) : List ProductOutput :=
  match st.redis with
  | none => []
  | some r =>
    let cutoffTime := now - getTimeWindowSeconds timeWindow * 1000
    let trendingIds :=
      match categoryId with
      | some _ => zrevrangebyscore (r.trending timeWindow) cutoffTime (limit * 2)
      | none => zrevrangebyscore (r.trending timeWindow) cutoffTime limit
    trendLoop st.db categoryId limit trendingIds []

/-- What a trending query must satisfy relative to the sorted set it ranged
over: at most `limit` results, every result's last-view score within the
window, and results ordered by descending last-view score. -/
def trendingResultSpec (z : ZSet) (itemData : String → Option FeedItem) (cutoff : Int)
    (limit : Nat) (res : List FeedItem) : Prop :=
  res.length ≤ limit ∧
  (∀ it ∈ res, ∃ sc, zscore z it.id = some sc ∧ cutoff ≤ sc) ∧
  res.Pairwise (fun a b => ∀ sa sb, zscore z a.id = some sa → zscore z b.id = some sb → sb ≤ sa)

/-- Row-wise contract of `updateProduct`: rows with another id are untouched;
the matching row keeps `id`, `sellerId`, `createdAt` and every unprovided
field, gets every provided field, and gets `updatedAt := now`. -/
def updatedRecordRel (id : String) (u : ProductUpdate) (now : Int) (p q : Product) : Prop :=
  (p.id ≠ id → q = p) ∧
  (p.id = id →
    q.id = p.id ∧ q.sellerId = p.sellerId ∧ q.createdAt = p.createdAt ∧
    q.updatedAt = some now ∧
    (u.name = none → q.name = p.name) ∧ (∀ v, u.name = some v → q.name = v) ∧
    (u.description = none → q.description = p.description) ∧
    (∀ v, u.description = some v → q.description = some v) ∧
    (u.price = none → q.price = p.price) ∧ (∀ v, u.price = some v → q.price = v) ∧
    (u.currency = none → q.currency = p.currency) ∧
    (∀ v, u.currency = some v → q.currency = v) ∧
    (u.availability = none → q.availability = p.availability) ∧
    (∀ v, u.availability = some v → q.availability = v) ∧
    (u.stockQuantity = none → q.stockQuantity = p.stockQuantity) ∧
    (∀ v, u.stockQuantity = some v → q.stockQuantity = some v) ∧
    (u.sku = none → q.sku = p.sku) ∧ (∀ v, u.sku = some v → q.sku = some v) ∧
    (u.gtin = none → q.gtin = p.gtin) ∧ (∀ v, u.gtin = some v → q.gtin = some v) ∧
    (u.brand = none → q.brand = p.brand) ∧ (∀ v, u.brand = some v → q.brand = some v))

/-- An empty Redis keyspace. -/
def exRssEmpty : RssStore :=
  { feedsDirectory := [], feedData := fun _ => none, feedItems := fun _ => [],
    itemData := fun _ => none, trending := fun _ => [], feedTrending := fun _ _ => [] }

/-- First item of the concrete two-item feed (mirrors the repository's
integration-test feed). -/
def exItem1 : FeedItem :=
  { id := "i1", title := "First Test Item", link := "l1", description := none,
    date := 200, published := some 200, category := [] }

/-- Second item of the concrete two-item feed. -/
def exItem2 : FeedItem :=
  { id := "i2", title := "Second Test Item", link := "l2", description := none,
    date := 100, published := some 100, category := [] }

/-- A concrete feed whose `items` array lists `exItem1` before `exItem2`. -/
def exFeed : Feed :=
  { options := { id := "tf", title := "Test Feed", description := "d", link := "l" },
    items := [exItem1, exItem2], categories := [] }

/-- Concrete item with id `a`, published at 100. -/
def exItemA : FeedItem :=
  { id := "a", title := "Item A", link := "la", description := none,
    date := 100, published := some 100, category := [] }

/-- Concrete item with id `b`, no `published` value, `date` 50. -/
def exItemB : FeedItem :=
  { id := "b", title := "Item B", link := "lb", description := none,
    date := 50, published := none, category := [] }

/-- A concrete store with one feed, two items and populated trending sets. -/
def exTrendStore : RssStore :=
  { feedsDirectory := ["f1"],
    feedData := fun _ => none,
    feedItems := fun f => if f = "f1" then ["a", "b"] else [],
    itemData := fun i => if i = "a" then some exItemA else if i = "b" then some exItemB else none,
    trending := fun _ => [("a", 100), ("b", 50)],
    feedTrending := fun f _ => if f = "f1" then [("a", 100)] else [] }

/-- A concrete store where item `i` is a member of both feeds' item lists. -/
def exTwoFeeds : RssStore :=
  { feedsDirectory := ["f1", "f2"],
    feedData := fun _ => none,
    feedItems := fun f => if f = "f1" then ["i"] else if f = "f2" then ["i"] else [],
    itemData := fun _ => none,
    trending := fun _ => [],
    feedTrending := fun _ _ => [] }

/-- A concrete product row with id `p1`. -/
def exProduct : Product :=
  { id := "p1", sellerId := "s1", name := "Prod", description := none, price := 10,
    currency := "USD", availability := "InStock", sku := none, gtin := none, brand := none,
    stockQuantity := some 0, createdAt := 0, updatedAt := none }

/-- A concrete database where product `p1` belongs to category `c1`. -/
def exMarketDb : MarketDb :=
  { products := [exProduct],
    productImages := [],
    productCategories := [("p1", "c1")],
    categories := [{ id := "c1", name := "Cat", slug := "cat", parentId := none }] }

/-- A concrete Redis client state whose every trending window holds `p1`
with last-view score 1000. -/
def exMarketRedisV : MarketRedis := { trending := fun _ => [("p1", 1000)] }

/-- Marketplace service state with the Redis client configured. -/
def exMarketState : MarketState := { db := exMarketDb, redis := some exMarketRedisV }

/-- Marketplace service state without a Redis client. -/
def exMarketNoRedis : MarketState := { db := exMarketDb, redis := none }

/-- After `zadd`, the member's score is exactly the added score, whatever it
was before. -/
theorem zscore_zadd (z : ZSet) (score : Int) (m : String) :
    zscore (zadd z score m) m = some score := by
  induction z with
  | nil => simp [zadd, zscore]
  | cons p rest ih =>
    by_cases h : p.1 = m
    · have hb : (p.1 == m) = true := beq_iff_eq.mpr h
      simp [zadd, zscore, List.filter_cons, hb]
    · have hb : (p.1 == m) = false := beq_eq_false_iff_ne.mpr h
      simp [zadd, zscore, List.filter_cons, List.find?, hb]

/-- In a sorted set with no duplicate members, membership of a pair
determines the member's score. -/
theorem zscore_of_mem_nodup (z : ZSet) (m : String) (sc : Int)
    (hnd : (z.map Prod.fst).Nodup) (hm : (m, sc) ∈ z) : zscore z m = some sc := by
  induction z with
  | nil => cases hm
  | cons p rest ih =>
    rw [List.map_cons, List.nodup_cons] at hnd
    obtain ⟨hnotin, hndr⟩ := hnd
    rcases List.mem_cons.mp hm with h | h
    · cases h
      simp [zscore, List.find?]
    · have hp : (p.1 == m) = false := by
        refine beq_eq_false_iff_ne.mpr ?_
        intro he
        exact hnotin (he ▸ List.mem_map_of_mem Prod.fst h)
      simpa [zscore, List.find?, hp] using ih hndr h

/-- Every pair the truncated reverse range returns is an entry of the set
with score at least the cutoff. -/
theorem mem_zrevPairs {z : ZSet} {minScore : Int} {limit : Nat} {p : String × Int}
    (hp : p ∈ zrevPairs z minScore limit) : p ∈ z ∧ minScore ≤ p.2 := by
  have h1 : p ∈ (z.filter fun q => decide (minScore ≤ q.2)).insertionSort zrevRel :=
    (List.take_sublist _ _).subset hp
  have h2 : p ∈ z.filter fun q => decide (minScore ≤ q.2) :=
    (List.mem_insertionSort zrevRel).mp h1
  have h3 := List.mem_filter.mp h2
  exact ⟨h3.1, by simpa using h3.2⟩

/-- The truncated reverse range is ordered by descending score. -/
theorem pairwise_zrevPairs (z : ZSet) (minScore : Int) (limit : Nat) :
    (zrevPairs z minScore limit).Pairwise zrevRel :=
  List.Pairwise.sublist (List.take_sublist _ _)
    (List.sorted_insertionSort zrevRel (z.filter fun q => decide (minScore ≤ q.2)))

/-- A pairwise relation survives `filterMap` when the mapping transports it. -/
theorem pairwise_filterMap_rel {α β : Type} {R : α → α → Prop} {S : β → β → Prop}
    (f : α → Option β) :
    ∀ l : List α, l.Pairwise R →
      (∀ a ∈ l, ∀ b ∈ l, ∀ x y, R a b → f a = some x → f b = some y → S x y) →
      (l.filterMap f).Pairwise S := by
  intro l
  induction l with
  | nil => intro _ _; simp
  | cons a t ih =>
    intro hp h
    obtain ⟨hra, hpt⟩ := List.pairwise_cons.mp hp
    cases hfa : f a with
    | none =>
      rw [List.filterMap_cons_none hfa]
      exact ih hpt fun b hb c hc => h b (List.mem_cons_of_mem a hb) c (List.mem_cons_of_mem a hc)
    | some x =>
      rw [List.filterMap_cons_some hfa]
      refine List.pairwise_cons.mpr ⟨?_, ?_⟩
      · intro y hy
        obtain ⟨b, hb, hfb⟩ := List.mem_filterMap.mp hy
        exact h a (List.mem_cons_self a t) b (List.mem_cons_of_mem a hb) x y (hra b hb) hfa hfb
      · exact ih hpt fun b hb c hc =>
          h b (List.mem_cons_of_mem a hb) c (List.mem_cons_of_mem a hc)

/-- Core property of the resolve loop shared by `getTrendingItems` and
`getFeedTrending`: provided set members are unique and stored items carry
their own key as id, the result meets `trendingResultSpec`. -/
theorem trending_core (z : ZSet) (itemData : String → Option FeedItem) (cutoff : Int)
    (limit : Nat) (hnd : (z.map Prod.fst).Nodup)
    (hid : ((zrevrangebyscore z cutoff limit).all
        fun i => (itemData i).all fun it => it.id == i) = true) :
    trendingResultSpec z itemData cutoff limit
      ((zrevrangebyscore z cutoff limit).filterMap itemData) := by
  have hall : ∀ i ∈ zrevrangebyscore z cutoff limit,
      ((itemData i).all fun it => it.id == i) = true := List.all_eq_true.mp hid
  have hkey : ∀ p ∈ zrevPairs z cutoff limit, ∀ it, itemData p.1 = some it → it.id = p.1 := by
    intro p hp it hit
    have h1 := hall p.1 (List.mem_map_of_mem Prod.fst hp)
    rw [hit] at h1
    simpa [Option.all] using h1
  have hrw : (zrevrangebyscore z cutoff limit).filterMap itemData =
      (zrevPairs z cutoff limit).filterMap (fun p => itemData p.1) := by
    unfold zrevrangebyscore
    exact List.filterMap_map _ _ _
  unfold trendingResultSpec
  refine ⟨?_, ?_, ?_⟩
  · rw [hrw]
    calc ((zrevPairs z cutoff limit).filterMap fun p => itemData p.1).length
        ≤ (zrevPairs z cutoff limit).length := List.length_filterMap_le _ _
      _ ≤ limit := List.length_take_le _ _
  · intro it hit
    rw [hrw] at hit
    obtain ⟨p, hp, hfp⟩ := List.mem_filterMap.mp hit
    obtain ⟨hpz, hpc⟩ := mem_zrevPairs hp
    refine ⟨p.2, ?_, hpc⟩
    rw [hkey p hp it hfp]
    exact zscore_of_mem_nodup z p.1 p.2 hnd (by simpa using hpz)
  · rw [hrw]
    refine pairwise_filterMap_rel _ _ (pairwise_zrevPairs z cutoff limit) ?_
    intro a ha b hb x y hr hfa hfb sa sb hsa hsb
    have hza : zscore z x.id = some a.2 := by
      rw [hkey a ha x hfa]
      exact zscore_of_mem_nodup z a.1 a.2 hnd (by simpa using (mem_zrevPairs ha).1)
    have hzb : zscore z y.id = some b.2 := by
      rw [hkey b hb y hfb]
      exact zscore_of_mem_nodup z b.1 b.2 hnd (by simpa using (mem_zrevPairs hb).1)
    have hsa2 : sa = a.2 := by rw [hsa] at hza; exact Option.some.inj hza
    have hsb2 : sb = b.2 := by rw [hsb] at hzb; exact Option.some.inj hzb
    rw [hsa2, hsb2]
    exact hr

/-- Concatenating the `take L` chunks at offsets `0, L, 2L, ...` recovers the
whole list once `n * L` covers its length. -/
theorem chunks_flatten {α : Type} (L : Nat) (hL : 0 < L) :
    ∀ (n : Nat) (l : List α), l.length ≤ n * L →
      ((List.range n).map fun k => (l.drop (k * L)).take L).flatten = l := by
  intro n
  induction n with
  | zero =>
    intro l hlen
    have h0 : l = [] := List.eq_nil_of_length_eq_zero (Nat.le_zero.mp (by simpa using hlen))
    subst h0
    simp
  | succ n ih =>
    intro l hlen
    rw [List.range_succ_eq_map, List.map_cons, List.flatten_cons, List.map_map]
    have hfun : ((fun k => (l.drop (k * L)).take L) ∘ Nat.succ) =
        fun k => ((l.drop L).drop (k * L)).take L := by
      funext k
      simp only [Function.comp_apply]
      rw [List.drop_drop, Nat.succ_mul, Nat.add_comm (k * L) L]
    rw [hfun]
    have hlen2 : (l.drop L).length ≤ n * L := by
      rw [List.length_drop]
      rw [Nat.succ_mul] at hlen
      omega
    rw [ih (l.drop L) hlen2]
    simp

/-- C1: with a category filter, `getTrendingProducts` resolves candidates via
`getProduct(id, false, false)`, so `categories` is never populated and the
post-hoc filter skips every candidate: the result is empty even for a
candidate product that belongs to the requested category (the unfiltered
query returns it, and loading categories shows the membership). -/
theorem trending_category_filter_always_empty :
    ("p1", "c1") ∈ exMarketDb.productCategories ∧
    (getProduct exMarketDb "p1" false true).map ProductOutput.categories =
      some (some [{ id := "c1", name := "Cat" }]) ∧
    getTrendingProducts exMarketState .w24h none 1 1000 =
      [{ product := exProduct, images := none, categories := none }] ∧
    getTrendingProducts exMarketState .w24h (some "c1") 1 1000 = [] := by
  decide

/-- C2: a trending query over window `w` at time `now` returns at most
`limit` items, each with a last-view score of at least
`now - windowSeconds * 1000`, in descending last-view-score order, for both
the global and the feed-scoped query; the window durations are the fixed
enumeration 1h=3600s, 24h=86400s, 7d=604800s, 30d=2592000s. -/
theorem trending_window_query_spec (s : RssStore) (w : TimeWindow) (limit : Nat) (now : Int)
    (feedId : String)
    (hnd : ((s.trending w).map Prod.fst).Nodup)
    (hndf : ((s.feedTrending feedId w).map Prod.fst).Nodup)
    (hid : ((zrevrangebyscore (s.trending w) (now - getTimeWindowSeconds w * 1000) limit).all
        fun i => (s.itemData i).all fun it => it.id == i) = true)
    (hidf : ((zrevrangebyscore (s.feedTrending feedId w) (now - getTimeWindowSeconds w * 1000)
        limit).all fun i => (s.itemData i).all fun it => it.id == i) = true) :
    (getTimeWindowSeconds .w1h = 3600 ∧ getTimeWindowSeconds .w24h = 86400 ∧
      getTimeWindowSeconds .w7d = 604800 ∧ getTimeWindowSeconds .w30d = 2592000) ∧
    trendingResultSpec (s.trending w) s.itemData (now - getTimeWindowSeconds w * 1000) limit
      (getTrendingItems s w limit now) ∧
    trendingResultSpec (s.feedTrending feedId w) s.itemData
      (now - getTimeWindowSeconds w * 1000) limit (getFeedTrending s feedId w limit now) :=
  ⟨⟨rfl, rfl, rfl, rfl⟩, trending_core _ _ _ _ hnd hid, trending_core _ _ _ _ hndf hidf⟩

/-- C2 witness: the spec instantiated on a concrete store, window 1h, limit
10, now 100. -/
theorem trending_window_query_spec_witness :
    (getTimeWindowSeconds .w1h = 3600 ∧ getTimeWindowSeconds .w24h = 86400 ∧
      getTimeWindowSeconds .w7d = 604800 ∧ getTimeWindowSeconds .w30d = 2592000) ∧
    trendingResultSpec (exTrendStore.trending .w1h) exTrendStore.itemData
      (100 - getTimeWindowSeconds .w1h * 1000) 10 (getTrendingItems exTrendStore .w1h 10 100) ∧
    trendingResultSpec (exTrendStore.feedTrending "f1" .w1h) exTrendStore.itemData
      (100 - getTimeWindowSeconds .w1h * 1000) 10
      (getFeedTrending exTrendStore "f1" .w1h 10 100) :=
  trending_window_query_spec exTrendStore .w1h 10 100 "f1" (by decide) (by decide) (by decide)
    (by decide)

/-- C3: a view recorded at time `t` upserts the entity's score to `t` in
every one of the four window score sets, overwriting whatever was there, for
the RSS tracker and for the marketplace tracker when Redis is configured
(which also reports success). -/
theorem record_view_upserts_timestamp (s : RssStore) (itemId : String) (now : Int)
    (st : MarketState) (productId : String) (r : MarketRedis) (hr : st.redis = some r) :
    (∀ w, zscore ((trackItemView s itemId now).trending w) itemId = some now) ∧
    (trackProductView st productId now).2 = true ∧
    (∃ r2, (trackProductView st productId now).1.redis = some r2 ∧
      ∀ w, zscore (r2.trending w) productId = some now) := by
  refine ⟨?_, ?_, ?_⟩
  · intro w
    have htr : (trackItemView s itemId now).trending w = zadd (s.trending w) now itemId := by
      unfold trackItemView
      rcases hfind : s.feedsDirectory.find? (fun f => (s.feedItems f).contains itemId) with
        _ | hit <;> simp [hfind]
    rw [htr]
    exact zscore_zadd _ _ _
  · unfold trackProductView
    rw [hr]
  · unfold trackProductView
    rw [hr]
    exact ⟨_, rfl, fun w => zscore_zadd _ _ _⟩

/-- C3 witness: the spec at a concrete item, product, store and time. -/
theorem record_view_upserts_timestamp_witness :
    (∀ w, zscore ((trackItemView exRssEmpty "i" 7).trending w) "i" = some 7) ∧
    (trackProductView exMarketState "p1" 7).2 = true ∧
    (∃ r2, (trackProductView exMarketState "p1" 7).1.redis = some r2 ∧
      ∀ w, zscore (r2.trending w) "p1" = some 7) :=
  record_view_upserts_timestamp exRssEmpty "i" 7 exMarketState "p1" exMarketRedisV rfl

/-- C4: the feed item list does not preserve insertion order - `addFeed` and
`addFeedItem` prepend via `LPUSH`, so after storing items i1 then i2 the
membership list reads back i2 before i1 (the claim and the repository's own
integration test expect i1 before i2). -/
theorem feed_items_reverse_insertion_order :
    exFeed.items.map FeedItem.id = ["i1", "i2"] ∧
    (getFeedItems (addFeed exRssEmpty exFeed) "tf").map FeedItem.id = ["i2", "i1"] ∧
    (getFeedItems (addFeedItem (addFeedItem exRssEmpty "g" exItem1) "g" exItem2) "g").map
      FeedItem.id = ["i2", "i1"] := by
  decide

/-- C5: for a fixed store, pages of `getAllFeedItems` at offsets
`0, L, 2L, ...` are exactly the slices of the combined date-sorted list, and
their concatenation over enough pages recovers that entire list, which is
sorted by descending publish date and is a permutation of everything the
collection pass gathered. -/
theorem allitems_pagination_spec (s : RssStore) (since : Option Int) (L n : Nat)
    (hL : 0 < L) (hn : (sortedAllItems s since).length ≤ n * L) :
    ((List.range n).map fun k => getAllFeedItems s L (k * L) since).flatten =
      sortedAllItems s since ∧
    (∀ k : Nat, getAllFeedItems s L (k * L) since =
      ((sortedAllItems s since).drop (k * L)).take L) ∧
    (sortedAllItems s since).Sorted dateDescRel ∧
    List.Perm (sortedAllItems s since) (collectAllItems s since) :=
  ⟨chunks_flatten L hL n _ hn, fun _ => rfl, List.sorted_insertionSort dateDescRel _,
    List.perm_insertionSort dateDescRel _⟩

/-- C5 witness: pagination with page size 1 over a concrete two-item store. -/
theorem allitems_pagination_spec_witness :
    ((List.range 2).map fun k => getAllFeedItems exTrendStore 1 (k * 1) none).flatten =
      sortedAllItems exTrendStore none ∧
    (∀ k : Nat, getAllFeedItems exTrendStore 1 (k * 1) none =
      ((sortedAllItems exTrendStore none).drop (k * 1)).take 1) ∧
    (sortedAllItems exTrendStore none).Sorted dateDescRel ∧
    List.Perm (sortedAllItems exTrendStore none) (collectAllItems exTrendStore none) :=
  allitems_pagination_spec exTrendStore none 1 2 (by decide) (by decide)

/-- C6: `updateProduct` always reports success; with no provided fields it
writes nothing at all; otherwise it rewrites only the selected row, setting
exactly the provided fields plus the modification timestamp and keeping
every other field. -/
theorem update_only_provided_fields (tbl : List Product) (id : String) (u : ProductUpdate)
    (now : Int) :
    (updateProduct tbl id u now).2 = true ∧
    (hasUpdateFields u = false → (updateProduct tbl id u now).1 = tbl) ∧
    (hasUpdateFields u = true →
      List.Forall₂ (updatedRecordRel id u now) tbl (updateProduct tbl id u now).1) := by
  refine ⟨?_, ?_, ?_⟩
  · unfold updateProduct
    split <;> rfl
  · intro h
    simp [updateProduct, h]
  · intro h
    unfold updateProduct
    rw [if_pos h]
    show List.Forall₂ (updatedRecordRel id u now) tbl
      (tbl.map fun p => if p.id = id then applyUpdate u now p else p)
    induction tbl with
    | nil => exact List.Forall₂.nil
    | cons p t ih =>
      rw [List.map_cons]
      refine List.Forall₂.cons ?_ ih
      unfold updatedRecordRel
      by_cases hid : p.id = id
      · rw [if_pos hid]
        refine ⟨fun hne => absurd hid hne, fun _ => ?_⟩
        refine ⟨rfl, rfl, rfl, rfl, ?_, ?_, ?_, ?_, ?_, ?_, ?_, ?_, ?_, ?_, ?_, ?_, ?_, ?_,
          ?_, ?_, ?_, ?_⟩
        · intro h0; simp [applyUpdate, h0]
        · intro v hv; simp [applyUpdate, hv]
        · intro h0; simp [applyUpdate, updOpt, h0]
        · intro v hv; simp [applyUpdate, updOpt, hv]
        · intro h0; simp [applyUpdate, h0]
        · intro v hv; simp [applyUpdate, hv]
        · intro h0; simp [applyUpdate, h0]
        · intro v hv; simp [applyUpdate, hv]
        · intro h0; simp [applyUpdate, h0]
        · intro v hv; simp [applyUpdate, hv]
        · intro h0; simp [applyUpdate, updOpt, h0]
        · intro v hv; simp [applyUpdate, updOpt, hv]
        · intro h0; simp [applyUpdate, updOpt, h0]
        · intro v hv; simp [applyUpdate, updOpt, hv]
        · intro h0; simp [applyUpdate, updOpt, h0]
        · intro v hv; simp [applyUpdate, updOpt, hv]
        · intro h0; simp [applyUpdate, updOpt, h0]
        · intro v hv; simp [applyUpdate, updOpt, hv]
      · rw [if_neg hid]
        exact ⟨fun _ => rfl, fun he => absurd he hid⟩

/-- C7: a missing record is a normal `null` return, never an error - the RSS
`getFeed` returns `ok none` exactly when the store lookup succeeds with no
value and errors only when the store call itself fails; the marketplace
`getProduct` returns `none` when no row matches. -/
theorem notfound_returns_null :
    (∀ clientGet feedId, clientGet ("feed:" ++ feedId) = .ok none →
      getFeedWithClient clientGet feedId = .ok none) ∧
    (∀ clientGet feedId f, clientGet ("feed:" ++ feedId) = .ok (some f) →
      getFeedWithClient clientGet feedId = .ok (some f)) ∧
    (∀ clientGet feedId e, getFeedWithClient clientGet feedId = .error e →
      clientGet ("feed:" ++ feedId) = .error ()) ∧
    (∀ db id ii ic, db.products.find? (fun p => p.id == id) = none →
      getProduct db id ii ic = none) := by
  refine ⟨?_, ?_, ?_, ?_⟩
  · intro g feedId h
    simp [getFeedWithClient, h]
  · intro g feedId f h
    simp [getFeedWithClient, h]
  · intro g feedId e h
    unfold getFeedWithClient at h
    cases hg : g ("feed:" ++ feedId) with
    | ok d => rw [hg] at h; cases h
    | error u => rfl
  · intro db id ii ic h
    simp [getProduct, h]

/-- C8: with no Redis client configured, `trackProductView` is a no-op that
reports success and `getTrendingProducts` returns the empty list. -/
theorem no_redis_degrades_gracefully (st : MarketState) (productId : String) (now : Int)
    (w : TimeWindow) (categoryId : Option String) (limit : Nat) (h : st.redis = none) :
    trackProductView st productId now = (st, true) ∧
    getTrendingProducts st w categoryId limit now = [] := by
  constructor
  · unfold trackProductView
    rw [h]
  · unfold getTrendingProducts
    rw [h]

/-- C8 witness: the no-Redis behaviour at a concrete state. -/
theorem no_redis_degrades_gracefully_witness :
    trackProductView exMarketNoRedis "x" 5 = (exMarketNoRedis, true) ∧
    getTrendingProducts exMarketNoRedis .w1h none 10 5 = [] :=
  no_redis_degrades_gracefully exMarketNoRedis "x" 5 .w1h none 10 rfl

/-- C9: `getFeedItem` depends only on the item id and the item record store -
two lookups with different feed ids agree, and both are the plain key
lookup. -/
theorem item_lookup_ignores_feed_id (s : RssStore) (feedId1 feedId2 itemId : String) :
    getFeedItem s feedId1 itemId = getFeedItem s feedId2 itemId ∧
    getFeedItem s feedId1 itemId = s.itemData itemId :=
  ⟨rfl, rfl⟩

/-- C10: one `trackItemView` call changes the feed-scoped trending sets of at
most one of any two distinct feeds (the directory scan stops at the first
feed containing the item), while the global window sets always receive the
view. -/
theorem feed_scoped_view_single_feed (s : RssStore) (itemId : String) (now : Int)
    (f1 f2 : String) (hne : f1 ≠ f2) :
    ((∀ w, (trackItemView s itemId now).feedTrending f1 w = s.feedTrending f1 w) ∨
      (∀ w, (trackItemView s itemId now).feedTrending f2 w = s.feedTrending f2 w)) ∧
    (∀ w, zscore ((trackItemView s itemId now).trending w) itemId = some now) := by
  constructor
  · unfold trackItemView
    rcases hfind : s.feedsDirectory.find? (fun f => (s.feedItems f).contains itemId) with
      _ | hit
    · left
      intro w
      simp [hfind]
    · by_cases h1 : f1 = hit
      · right
        intro w
        have h2 : f2 ≠ hit := fun he => hne (h1.trans he.symm)
        simp [hfind, h2]
      · left
        intro w
        simp [hfind, h1]
  · intro w
    have htr : (trackItemView s itemId now).trending w = zadd (s.trending w) now itemId := by
      unfold trackItemView
      rcases hfind : s.feedsDirectory.find? (fun f => (s.feedItems f).contains itemId) with
        _ | hit <;> simp [hfind]
    rw [htr]
    exact zscore_zadd _ _ _

/-- C10 witness: item `i` sits in both feeds of a concrete store; at most one
scoped set changes and the global sets record the view. -/
theorem feed_scoped_view_single_feed_witness :
    ((∀ w, (trackItemView exTwoFeeds "i" 5).feedTrending "f1" w =
        exTwoFeeds.feedTrending "f1" w) ∨
      (∀ w, (trackItemView exTwoFeeds "i" 5).feedTrending "f2" w =
        exTwoFeeds.feedTrending "f2" w)) ∧
    (∀ w, zscore ((trackItemView exTwoFeeds "i" 5).trending w) "i" = some 5) :=
  feed_scoped_view_single_feed exTwoFeeds "i" 5 "f1" "f2" (by decide)
